import Mathlib

/-!
Verification development for the paperless-cli API access layer.

Go strings are modelled as lists of characters (`GoStr`); Go `int` as `Int`;
fallible Go functions return `Except GoError _` or `Option _`.  Each model
definition is a direct translation of the corresponding Go function from the
repository's source (package api client code and the documents command file).
HTTP exchanges are modelled by passing the server's response (status code,
decoded body) as explicit arguments to the pure function that processes it.
-/

namespace Paperless

/-- Go strings, modelled as lists of characters. -/
abbrev GoStr := List Char

/-! ## strconv.Atoi -/

/-- Accumulating decimal-digit parser: consumes the whole list, failing on the
first non-digit character.  Models the digit loop of Go's ParseInt in base 10. -/
def parseDigitsAux : Nat → List Char → Option Nat
  | acc, [] => some acc
  | acc, c :: cs =>
    if ('0' ≤ c ∧ c ≤ '9') then parseDigitsAux (acc * 10 + (c.toNat - '0'.toNat)) cs
    else none

/-- Model of Go strconv.Atoi (equivalently ParseInt(s, 10, 64)): an optional
leading sign followed by at least one ASCII decimal digit and nothing else;
values outside the signed 64-bit range are a range error, hence none. -/
def goAtoi (s : GoStr) : Option Int :=
  let signed : Bool × GoStr :=
    match s with
    | '+' :: r => (false, r)
    | '-' :: r => (true, r)
    | r => (false, r)
  match signed.2 with
  | [] => none
  | c :: cs =>
    match parseDigitsAux 0 (c :: cs) with
    | none => none
    | some n =>
      let v : Int := if signed.1 then -(n : Int) else (n : Int)
      if v < -(2 ^ 63) ∨ (2 ^ 63 - 1 : Int) < v then none else some v

/-! ## strings.EqualFold (ASCII case folding, as used for the names here) -/

/-- Case-insensitive string equality, modelling Go strings.EqualFold restricted
to ASCII simple case folding. -/
def eqFold (s t : GoStr) : Bool :=
  s.map Char.toLower == t.map Char.toLower

/-! ## Data model and errors -/

/-- A Paperless tag, reduced to the fields the resolution and reconciliation
algorithms consult: the server-assigned ID and the display name. -/
structure Tag where
  id : Int
  name : GoStr
deriving DecidableEq

/-- A Paperless task, reduced to the fields the task-lookup path consults. -/
structure Task where
  id : Int
  taskId : GoStr
  status : GoStr
deriving DecidableEq

/-- Error values produced by the client operations, mirroring the distinct
fmt.Errorf formats in the source. -/
inductive GoError where
  | apiError (status : Nat) (body : GoStr)
  | uploadFailed (status : Nat) (body : GoStr)
  | downloadFailed (status : Nat) (body : GoStr)
  | tagNotFound (token : GoStr)
  | taskNotFound (taskId : GoStr)
deriving DecidableEq

/-- Decidable equality for Except results, so concrete runs of the fallible
operations can be checked by decide. -/
def exceptDecEq {ε α : Type} [DecidableEq ε] [DecidableEq α] :
    (x y : Except ε α) → Decidable (x = y)
  | .ok a, .ok b =>
    if h : a = b then .isTrue (by rw [h])
    else .isFalse (by intro hh; cases hh; exact h rfl)
  | .error a, .error b =>
    if h : a = b then .isTrue (by rw [h])
    else .isFalse (by intro hh; cases hh; exact h rfl)
  | .ok _, .error _ => .isFalse (by intro hh; cases hh)
  | .error _, .ok _ => .isFalse (by intro hh; cases hh)

instance {ε α : Type} [DecidableEq ε] [DecidableEq α] : DecidableEq (Except ε α) :=
  exceptDecEq

/-! ## FindTagByName and reference resolution -/

/-- Model of Client.FindTagByName's loop over the listed tags: return the first
tag whose name matches case-insensitively, else a not-found error. -/
def FindTagByName (name : GoStr) : List Tag → Except GoError Tag
  | [] => .error (.tagNotFound name)
  | t :: ts => if eqFold t.name name then .ok t else FindTagByName name ts

/-- Reference resolution for a tag token as performed inline in runDocsEdit and
runDocsUpload: a token that Atoi accepts is used as the ID directly; otherwise
FindTagByName runs over the listed tags.  The second component counts the List
calls issued (FindTagByName performs exactly one ListTags round trip). -/
def resolveTagToken (env : List Tag) (tok : GoStr) : Except GoError Int × Nat :=
  match goAtoi tok with
  | some n => (.ok n, 0)
  | none =>
    match FindTagByName tok env with
    | .ok t => (.ok t.id, 1)
    | .error e => (.error e, 1)

/-! ## Tag reconciliation (runDocsEdit tag handling) -/

/-- The add loop of runDocsEdit: each add token is resolved (numeric or by
name) and inserted; a failed name resolution aborts with the error. -/
def applyAdds (env : List Tag) (s : Finset Int) : List GoStr → Except GoError (Finset Int)
  | [] => .ok s
  | tok :: rest =>
    match goAtoi tok with
    | some n => applyAdds env (insert n s) rest
    | none =>
      match FindTagByName tok env with
      | .ok t => applyAdds env (insert t.id s) rest
      | .error e => .error e

/-- The remove loop of runDocsEdit: numeric tokens are deleted from the set;
name tokens that resolve are deleted; name tokens that fail to resolve are
silently skipped. -/
def applyRemoves (env : List Tag) (s : Finset Int) : List GoStr → Finset Int
  | [] => s
  | tok :: rest =>
    match goAtoi tok with
    | some n => applyRemoves env (s.erase n) rest
    | none =>
      match FindTagByName tok env with
      | .ok t => applyRemoves env (s.erase t.id) rest
      | .error _ => applyRemoves env s rest

/-- Tag reconciliation as performed by runDocsEdit: start from the document's
current tag IDs as a set, run all adds, then all removes. -/
def reconcile (env : List Tag) (current : List Int) (adds removes : List GoStr) :
    Except GoError (Finset Int) :=
  match applyAdds env current.toFinset adds with
  | .error e => .error e
  | .ok s => .ok (applyRemoves env s removes)

/-- Emission of the reconciled set as the update payload's tag list (the range
over the Go map building newTags; that iteration order is unspecified, so the
model fixes a canonical order). -/
def emitTags (s : Finset Int) : List Int := s.sort (· ≤ ·)

/-! ## Transport (NewClient / Client.request) -/

/-- Model of Go strings.HasSuffix: the final bytes of s equal suffix. -/
def goHasSuffix (s suffix : GoStr) : Bool :=
  decide (suffix.length ≤ s.length) && s.drop (s.length - suffix.length) == suffix

/-- Model of Go strings.TrimSuffix: remove one occurrence of the suffix from
the end of s when present. -/
def goTrimSuffix (s suffix : GoStr) : GoStr :=
  if goHasSuffix s suffix then s.take (s.length - suffix.length) else s

/-- The API client's read-only configuration, built once by NewClient. -/
structure Client where
  baseURL : GoStr
  token : GoStr
  timeoutSeconds : Nat
deriving DecidableEq

/-- Model of NewClient: one trailing slash is trimmed off the base URL and the
HTTP client is configured with a 30 second timeout. -/
def NewClient (baseURL token : GoStr) : Client :=
  { baseURL := goTrimSuffix baseURL ['/'], token := token, timeoutSeconds := 30 }

/-- The observable fields of the http.Request that Client.request builds. -/
structure GoRequest where
  method : GoStr
  url : GoStr
  authorization : GoStr
  contentType : Option GoStr
  accept : GoStr
deriving DecidableEq

/-- Model of Client.request: the URL is base URL ++ path, the Authorization
header is the word Token, a space and the configured token, the Content-Type
header is set only for a nonempty contentType argument, and the Accept header
pins API version 5. -/
def Client.request (c : Client) (method path : GoStr) (contentType : GoStr) : GoRequest :=
  { method := method
    url := c.baseURL ++ path
    authorization := ("Token ".toList) ++ c.token
    contentType := if contentType ≠ [] then some contentType else none
    accept := "application/json; version=5".toList }

/-- A duplicate slash appears at the join point when the stored base URL ends
with a slash and the path begins with one. -/
def joinDupSlash (base path : GoStr) : Bool :=
  base.getLast? == some '/' && path.head? == some '/'

/-! ## strings.Trim and the upload protocol -/

/-- Model of Go strings.Trim: remove every leading and trailing character that
belongs to the cutset. -/
def goTrim (s cutset : GoStr) : GoStr :=
  (((s.dropWhile (· ∈ cutset)).reverse.dropWhile (· ∈ cutset))).reverse

/-- The cutset UploadDocument trims from the response body: a double quote, a
space and a newline. -/
def uploadCutset : GoStr := ['"', ' ', '\n']

/-- Model of UploadDocument's handling of the server response: 200, 201 and
202 succeed with the trimmed body as the task handle; any other status fails
with an error carrying the status and body. -/
def UploadDocument (status : Nat) (respBody : GoStr) : Except GoError GoStr :=
  if status ≠ 200 ∧ status ≠ 201 ∧ status ≠ 202 then
    .error (.uploadFailed status respBody)
  else
    .ok (goTrim respBody uploadCutset)

/-- Modelled from the spec: the claim's reading of the upload result, the
response body with all whitespace and surrounding quote characters stripped.
Kept separate from UploadDocument to compare the two. -/
def specUploadStrip (respBody : GoStr) : GoStr :=
  let p : Char → Bool := fun c => c.isWhitespace || c = '"'
  ((respBody.dropWhile p).reverse.dropWhile p).reverse

/-! ## strings.Index and the download protocol -/

/-- Model of Go strings.Index: the first position at which pat occurs as a
contiguous substring, or none. -/
def goIndex (pat : GoStr) : GoStr → Option Nat
  | [] => if pat.isPrefixOf ([] : GoStr) then some 0 else none
  | c :: rest =>
    if pat.isPrefixOf (c :: rest) then some 0
    else (goIndex pat rest).map (· + 1)

/-- The literal the download path searches the Content-Disposition header for. -/
def filenameKey : GoStr := "filename=".toList

/-- Model of DownloadDocument's filename extraction: when the header is
nonempty and contains the filename key, take everything after the key and trim
surrounding double quotes; otherwise the filename is empty. -/
def extractFilename (cd : GoStr) : GoStr :=
  if cd ≠ [] then
    match goIndex filenameKey cd with
    | some idx => goTrim (cd.drop (idx + 9)) ['"']
    | none => []
  else []

/-- Model of DownloadDocument's handling of the server response: only 200
succeeds, yielding the body bytes and the extracted filename; any other status
fails with an error carrying the status and body. -/
def DownloadDocument (status : Nat) (body : GoStr) (contentDisposition : GoStr) :
    Except GoError (GoStr × GoStr) :=
  if status ≠ 200 then .error (.downloadFailed status body)
  else .ok (body, extractFilename contentDisposition)

/-! ## Task lookup -/

/-- The query path GetTask issues: a list endpoint filtered by task_id. -/
def getTaskPath (taskId : GoStr) : GoStr := "/api/tasks/?task_id=".toList ++ taskId

/-- Model of GetTask's handling of the server response: non-200 is an API
error; an empty decoded list is a not-found error; otherwise the first element
of the list is returned. -/
def GetTask (taskId : GoStr) (status : Nat) (body : GoStr) (tasks : List Task) :
    Except GoError Task :=
  if status ≠ 200 then .error (.apiError status body)
  else
    match tasks with
    | [] => .error (.taskNotFound taskId)
    | t :: _ => .ok t

/-! ## Batch loops (runDocsUpload / runDocsDelete) -/

/-- The per-file loop of runDocsUpload, instrumented with the list of files an
upload was attempted for.  Returns the (file, task) reports already printed,
the attempted files in order, and the aborting failure when one occurred. -/
def runUploadBatch {α β ε : Type} (u : α → Except ε β) :
    List α → List (α × β) × List α × Option (α × ε)
  | [] => ([], [], none)
  | f :: fs =>
    match u f with
    | .ok t =>
      let r := runUploadBatch u fs
      ((f, t) :: r.1, f :: r.2.1, r.2.2)
    | .error e => ([], [f], some (f, e))

/-- The per-id loop of runDocsDelete, instrumented the same way as the upload
loop: deleted ids reported so far, attempted ids in order, and the aborting
failure when one occurred. -/
def runDeleteBatch {α ε : Type} (d : α → Except ε Unit) :
    List α → List α × List α × Option (α × ε)
  | [] => ([], [], none)
  | x :: xs =>
    match d x with
    | .ok _ =>
      let r := runDeleteBatch d xs
      (x :: r.1, x :: r.2.1, r.2.2)
    | .error e => ([], [x], some (x, e))

/-! ## Document list query construction -/

/-- Fuel-driven digit accumulator: prepends the decimal digits of n to acc.
The fuel bounds the number of divisions and always suffices when it is at
least n. -/
def natDecimalCore : Nat → Nat → GoStr → GoStr
  | _, 0, acc => acc
  | 0, _, acc => acc
  | fuel + 1, n + 1, acc =>
    natDecimalCore fuel ((n + 1) / 10) (Char.ofNat (48 + (n + 1) % 10) :: acc)

/-- Decimal rendering of a natural number, most significant digit first. -/
def natDecimal (n : Nat) : GoStr :=
  if n = 0 then ['0'] else natDecimalCore n n []

/-- Model of Go strconv.Itoa. -/
def goItoa (i : Int) : GoStr :=
  if i < 0 then '-' :: natDecimal (-i).toNat else natDecimal i.toNat

/-- The filter parameters of ListDocuments, with Go zero values (empty string,
zero int) denoting an absent filter. -/
structure DocumentListParams where
  query : GoStr
  tags : List GoStr
  correspondent : GoStr
  documentType : GoStr
  createdAfter : GoStr
  createdBefore : GoStr
  limit : Int
  page : Int
  ordering : GoStr

def keyQuery : GoStr := "query".toList
def keyTags : GoStr := "tags__name__iexact".toList
def keyCorrespondent : GoStr := "correspondent__name__iexact".toList
def keyDocumentType : GoStr := "document_type__name__iexact".toList
def keyCreatedAfter : GoStr := "created__date__gt".toList
def keyCreatedBefore : GoStr := "created__date__lt".toList
def keyPageSize : GoStr := "page_size".toList
def keyPage : GoStr := "page".toList
def keyOrdering : GoStr := "ordering".toList

/-- The query parameters ListDocuments sets, as key-value pairs in the order
the source adds them.  url.Values is a map keyed by parameter name and the
keys set here are pairwise distinct, so a list of pairs models it; Encode's
key sorting only affects the rendered order, not which pairs are present. -/
def docListQuery (p : DocumentListParams) : List (GoStr × GoStr) :=
  (if p.query ≠ [] then [(keyQuery, p.query)] else [])
    ++ p.tags.map (fun t => (keyTags, t))
    ++ (if p.correspondent ≠ [] then [(keyCorrespondent, p.correspondent)] else [])
    ++ (if p.documentType ≠ [] then [(keyDocumentType, p.documentType)] else [])
    ++ (if p.createdAfter ≠ [] then [(keyCreatedAfter, p.createdAfter)] else [])
    ++ (if p.createdBefore ≠ [] then [(keyCreatedBefore, p.createdBefore)] else [])
    ++ (if 0 < p.limit then [(keyPageSize, goItoa p.limit)] else [])
    ++ (if 0 < p.page then [(keyPage, goItoa p.page)] else [])
    ++ (if p.ordering ≠ [] then [(keyOrdering, p.ordering)] else [])

/-- The literal request path of ListTags. -/
def listTagsPath : GoStr := "/api/tags/?page_size=1000".toList

/-- The literal request path of ListCorrespondents. -/
def listCorrespondentsPath : GoStr := "/api/correspondents/?page_size=1000".toList

/-- The literal request path of ListDocumentTypes. -/
def listDocumentTypesPath : GoStr := "/api/document_types/?page_size=1000".toList

/-- The literal request path of ListStoragePaths. -/
def listStoragePathsPath : GoStr := "/api/storage_paths/?page_size=1000".toList

/-- The literal request path of ListSavedViews. -/
def listSavedViewsPath : GoStr := "/api/saved_views/?page_size=1000".toList

/-- The fixed page-size query string shared by the auxiliary list endpoints. -/
def auxPageSizeQuery : GoStr := "?page_size=1000".toList

/-! ## The truncate display helper -/

/-- Model of the documents command's truncate helper.  Go slicing panics when
the index max-3 is negative (or beyond the length), so the partial slice is
modelled with Option: none is the panic. -/
def truncate (s : GoStr) (max : Int) : Option GoStr :=
  if (s.length : Int) ≤ max then some s
  else if 0 ≤ max - 3 ∧ max - 3 ≤ (s.length : Int) then
    some (s.take (max - 3).toNat ++ ['.', '.', '.'])
  else none

/-! ## Helper lemmas -/

/-- FindTagByName returns the first case-insensitive name match of the listed
tags, and the not-found error exactly when no tag matches. -/
theorem findTagByName_eq_find? (tok : GoStr) (env : List Tag) :
    FindTagByName tok env =
      match env.find? (fun r => eqFold r.name tok) with
      | some t => Except.ok t
      | none => Except.error (GoError.tagNotFound tok) := by
  induction env with
  | nil => rfl
  | cons t ts ih =>
    by_cases h : eqFold t.name tok
    · simp [FindTagByName, List.find?_cons, h]
    · simp [FindTagByName, List.find?_cons, h, ih]

theorem resolveTagToken_int (env : List Tag) (tok : GoStr) (n : Int)
    (h : goAtoi tok = some n) : resolveTagToken env tok = (.ok n, 0) := by
  simp [resolveTagToken, h]

theorem resolveTagToken_name (env : List Tag) (tok : GoStr)
    (h : goAtoi tok = none) :
    resolveTagToken env tok =
      (match FindTagByName tok env with
       | .ok t => (Except.ok t.id, 1)
       | .error e => (Except.error e, 1)) := by
  simp [resolveTagToken, h]

/-- Remove tokens whose name resolution fails are skipped by the remove loop,
wherever they occur in the token list. -/
theorem applyRemoves_skip (env : List Tag) (tok : GoStr)
    (hat : goAtoi tok = none)
    (hf : env.find? (fun r => eqFold r.name tok) = none) :
    ∀ (pre post : List GoStr) (s : Finset Int),
      applyRemoves env s (pre ++ tok :: post) = applyRemoves env s (pre ++ post) := by
  have herr : FindTagByName tok env = .error (.tagNotFound tok) := by
    rw [findTagByName_eq_find?, hf]
  intro pre
  induction pre with
  | nil => intro post s; simp [applyRemoves, hat, herr]
  | cons p ps ih =>
    intro post s
    cases hp : goAtoi p with
    | some m => simp [applyRemoves, hp, ih]
    | none =>
      cases hfp : FindTagByName p env with
      | ok t => simp [applyRemoves, hp, hfp, ih]
      | error e => simp [applyRemoves, hp, hfp, ih]

theorem head?_dropWhile_false (q : Char → Bool) (l : List Char) (c : Char)
    (h : (l.dropWhile q).head? = some c) : q c = false := by
  induction l with
  | nil => simp [List.dropWhile] at h
  | cons a as ih =>
    by_cases hq : q a
    · rw [List.dropWhile_cons_of_pos hq] at h
      exact ih h
    · rw [List.dropWhile_cons_of_neg hq] at h
      simp only [List.head?_cons, Option.some.injEq] at h
      rw [← h]
      exact Bool.of_not_eq_true hq

/-- Both ends of a trimmed string are free of cutset characters. -/
theorem goTrim_ends (s cut : GoStr) :
    ∀ c ∈ cut, (goTrim s cut).head? ≠ some c ∧ (goTrim s cut).getLast? ≠ some c := by
  intro c hc
  set q : Char → Bool := fun a => decide (a ∈ cut) with hq
  have hqc : q c = true := by simp [hq, hc]
  constructor
  · intro h
    have hpre : ((s.dropWhile q).reverse.dropWhile q).reverse <+: s.dropWhile q := by
      have hsuf : (s.dropWhile q).reverse.dropWhile q <:+ (s.dropWhile q).reverse :=
        List.dropWhile_suffix q
      have hpp := List.reverse_prefix.mpr hsuf
      rwa [List.reverse_reverse] at hpp
    obtain ⟨t, ht⟩ := hpre
    have hgoal : (s.dropWhile q).head? = some c := by
      have hres : (goTrim s cut).head? = some c := h
      rw [goTrim] at hres
      rcases hres' : ((s.dropWhile q).reverse.dropWhile q).reverse with _ | ⟨a, as⟩
      · rw [hres'] at hres; simp at hres
      · rw [hres'] at hres
        simp only [List.head?_cons, Option.some.injEq] at hres
        rw [← ht, hres', hres]
        simp
    have := head?_dropWhile_false q s c hgoal
    rw [hqc] at this
    simp at this
  · intro h
    have hres : ((s.dropWhile q).reverse.dropWhile q).reverse.getLast? = some c := h
    rw [List.getLast?_reverse] at hres
    have := head?_dropWhile_false q (s.dropWhile q).reverse c hres
    rw [hqc] at this
    simp at this

/-! ## Claim theorems -/

/-- C1: tag reconciliation starts from the document's current tag-ID set and
applies every add token before any remove token, so a token that is added and
removed in the same invocation is absent from the result; in particular
reconcile of the set 1,2,3 with add 4 and remove 2 yields the set 1,3,4
whatever the listed tags are, and the emitted tag list is duplicate-free. -/
theorem c1_tag_reconciliation :
    (∀ env : List Tag,
        reconcile env [1, 2, 3] ["4".toList] ["2".toList] = .ok ({1, 3, 4} : Finset Int))
    ∧ (∀ (env : List Tag) (cur : List Int) (tok : GoStr) (n : Int) (s : Finset Int),
        (resolveTagToken env tok).1 = .ok n →
        reconcile env cur [tok] [tok] = .ok s → n ∉ s)
    ∧ (∀ (env : List Tag) (cur : List Int) (adds removes : List GoStr) (s : Finset Int),
        reconcile env cur adds removes = .ok s → (emitTags s).Nodup) := by
  refine ⟨?_, ?_, ?_⟩
  · intro env
    have h4 : goAtoi ['4'] = some 4 := by decide
    have h2 : goAtoi ['2'] = some 2 := by decide
    have : reconcile env [1, 2, 3] ["4".toList] ["2".toList]
        = .ok ((insert 4 (([1, 2, 3] : List Int).toFinset)).erase 2) := by
      simp [reconcile, applyAdds, applyRemoves, h4, h2]
    rw [this]
    decide
  · intro env cur tok n s hres hrec
    cases hat : goAtoi tok with
    | some m =>
      rw [resolveTagToken_int env tok m hat] at hres
      have hnm : m = n := by simpa using hres
      have : reconcile env cur [tok] [tok]
          = .ok ((insert m cur.toFinset).erase m) := by
        simp [reconcile, applyAdds, applyRemoves, hat]
      rw [this] at hrec
      have hs : (insert m cur.toFinset).erase m = s := by simpa using hrec
      rw [← hs, ← hnm]
      exact Finset.not_mem_erase m _
    | none =>
      rw [resolveTagToken_name env tok hat] at hres
      cases hfind : FindTagByName tok env with
      | ok t =>
        rw [hfind] at hres
        have hnm : t.id = n := by simpa using hres
        have : reconcile env cur [tok] [tok]
            = .ok ((insert t.id cur.toFinset).erase t.id) := by
          simp [reconcile, applyAdds, applyRemoves, hat, hfind]
        rw [this] at hrec
        have hs : (insert t.id cur.toFinset).erase t.id = s := by simpa using hrec
        rw [← hs, ← hnm]
        exact Finset.not_mem_erase t.id _
      | error e =>
        rw [hfind] at hres
        simp at hres
  · intro env cur adds removes s _
    exact Finset.sort_nodup _ s

/-- Witness for C1 at concrete inputs: the reconcile example, a same-token
add-and-remove run, and a duplicate-free emission. -/
theorem c1_tag_reconciliation_witness :
    reconcile [] [1, 2, 3] ["4".toList] ["2".toList] = .ok ({1, 3, 4} : Finset Int)
    ∧ (5 : Int) ∉ ({1} : Finset Int)
    ∧ (emitTags {1}).Nodup :=
  ⟨c1_tag_reconciliation.1 [],
   c1_tag_reconciliation.2.1 [] [1] "5".toList 5 {1} (by decide) (by decide),
   c1_tag_reconciliation.2.2 [] [1] [] [] {1} (by decide)⟩

/-- C2: a token accepted by Atoi resolves to that integer with no List call
issued; any other token costs exactly one List call and resolves to the first
tag whose name matches case-insensitively, failing with the not-found error
when no name matches. -/
theorem c2_reference_resolution :
    (∀ (env : List Tag) (tok : GoStr) (n : Int),
        goAtoi tok = some n → resolveTagToken env tok = (.ok n, 0))
    ∧ (∀ (env : List Tag) (tok : GoStr), goAtoi tok = none →
        (resolveTagToken env tok).2 = 1
        ∧ (∀ t : Tag, env.find? (fun r => eqFold r.name tok) = some t →
            (resolveTagToken env tok).1 = .ok t.id)
        ∧ (env.find? (fun r => eqFold r.name tok) = none →
            (resolveTagToken env tok).1 = .error (.tagNotFound tok))) := by
  refine ⟨resolveTagToken_int, ?_⟩
  intro env tok hat
  rw [resolveTagToken_name env tok hat, findTagByName_eq_find?]
  refine ⟨?_, ?_, ?_⟩
  · cases h : env.find? (fun r => eqFold r.name tok) <;> simp [h]
  · intro t ht; simp [ht]
  · intro h; simp [h]

/-- Witness for C2 at a one-tag environment: a numeric token, a matching name
token and a non-matching name token. -/
theorem c2_reference_resolution_witness :
    resolveTagToken [⟨7, "tax".toList⟩] "42".toList = (.ok 42, 0)
    ∧ (resolveTagToken [⟨7, "tax".toList⟩] "Tax".toList).1 = .ok 7
    ∧ (resolveTagToken [⟨7, "tax".toList⟩] "zz".toList).1
        = .error (.tagNotFound "zz".toList) :=
  ⟨c2_reference_resolution.1 [⟨7, "tax".toList⟩] "42".toList 42 (by decide),
   (c2_reference_resolution.2 [⟨7, "tax".toList⟩] "Tax".toList (by decide)).2.1
     ⟨7, "tax".toList⟩ (by decide),
   (c2_reference_resolution.2 [⟨7, "tax".toList⟩] "zz".toList (by decide)).2.2
     (by decide)⟩

/-- C5: a remove token whose name resolution fails is silently skipped and
reconciliation is unchanged by it; a numeric remove token absent from the set
is a silent no-op; an add token whose name resolution fails aborts the edit
with the not-found error. -/
theorem c5_remove_skip_add_abort :
    (∀ (env : List Tag) (cur : List Int) (adds pre post : List GoStr) (tok : GoStr),
        goAtoi tok = none → env.find? (fun r => eqFold r.name tok) = none →
        reconcile env cur adds (pre ++ tok :: post) = reconcile env cur adds (pre ++ post))
    ∧ (∀ (env : List Tag) (s : Finset Int) (tok : GoStr) (n : Int) (rest : List GoStr),
        goAtoi tok = some n → n ∉ s →
        applyRemoves env s (tok :: rest) = applyRemoves env s rest)
    ∧ (∀ (env : List Tag) (cur : List Int) (tok : GoStr) (adds removes : List GoStr),
        goAtoi tok = none → env.find? (fun r => eqFold r.name tok) = none →
        reconcile env cur (tok :: adds) removes = .error (.tagNotFound tok)) := by
  refine ⟨?_, ?_, ?_⟩
  · intro env cur adds pre post tok hat hf
    cases hadds : applyAdds env cur.toFinset adds with
    | ok s => simp [reconcile, hadds, applyRemoves_skip env tok hat hf]
    | error e => simp [reconcile, hadds]
  · intro env s tok n rest hat hn
    simp [applyRemoves, hat, Finset.erase_eq_of_not_mem hn]
  · intro env cur tok adds removes hat hf
    have herr : FindTagByName tok env = .error (.tagNotFound tok) := by
      rw [findTagByName_eq_find?, hf]
    simp [reconcile, applyAdds, hat, herr]

/-- Witness for C5 at concrete inputs: an unresolvable remove token is a
no-op, an absent numeric remove is a no-op, an unresolvable add aborts. -/
theorem c5_remove_skip_add_abort_witness :
    reconcile [] [1] [] ["zz".toList] = reconcile [] [1] [] []
    ∧ applyRemoves [] {1} ["2".toList] = applyRemoves [] {1} []
    ∧ reconcile [] [1] ["zz".toList] [] = .error (.tagNotFound "zz".toList) :=
  ⟨c5_remove_skip_add_abort.1 [] [1] [] [] [] "zz".toList (by decide) (by decide),
   c5_remove_skip_add_abort.2.1 [] {1} "2".toList 2 [] (by decide) (by decide),
   c5_remove_skip_add_abort.2.2 [] [1] "zz".toList [] [] (by decide) (by decide)⟩

/-- C3 counterexample: with status 200 and response body abc followed by a tab
character, the code returns the body unchanged (tab is not in the trim cutset),
while the body with all whitespace and surrounding quotes stripped would be
abc; so the claim as stated fails on this input. -/
theorem c3_upload_counterexample :
    UploadDocument 200 ['a', 'b', 'c', '\t'] = .ok ['a', 'b', 'c', '\t']
    ∧ specUploadStrip ['a', 'b', 'c', '\t'] = ['a', 'b', 'c']
    ∧ ['a', 'b', 'c', '\t'] ≠ ['a', 'b', 'c'] := by
  decide

/-- C3 amended: upload succeeds exactly when the status is 200, 201 or 202; on
success the task handle is the body with leading and trailing double-quote,
space and newline characters stripped (so neither end of the handle carries
such a character); on any other status it fails with an error carrying the
status and the response body. -/
theorem c3_upload :
    (∀ (status : Nat) (body : GoStr),
        (UploadDocument status body).isOk = true ↔ (status = 200 ∨ status = 201 ∨ status = 202))
    ∧ (∀ (status : Nat) (body : GoStr), status = 200 ∨ status = 201 ∨ status = 202 →
        UploadDocument status body = .ok (goTrim body uploadCutset))
    ∧ (∀ (status : Nat) (body : GoStr), ¬(status = 200 ∨ status = 201 ∨ status = 202) →
        UploadDocument status body = .error (.uploadFailed status body))
    ∧ (∀ (body r : GoStr), UploadDocument 200 body = .ok r →
        ∀ c ∈ uploadCutset, r.head? ≠ some c ∧ r.getLast? ≠ some c) := by
  refine ⟨?_, ?_, ?_, ?_⟩
  · intro status body
    by_cases h : status ≠ 200 ∧ status ≠ 201 ∧ status ≠ 202
    · simp [UploadDocument, h]; tauto
    · simp [UploadDocument, h, Except.isOk]; tauto
  · intro status body h
    have h' : ¬(status ≠ 200 ∧ status ≠ 201 ∧ status ≠ 202) := by tauto
    simp [UploadDocument, h']
  · intro status body h
    have h' : status ≠ 200 ∧ status ≠ 201 ∧ status ≠ 202 := by tauto
    simp [UploadDocument, h']
  · intro body r hok c hc
    have : UploadDocument 200 body = .ok (goTrim body uploadCutset) := by
      simp [UploadDocument]
    rw [this] at hok
    have hr : goTrim body uploadCutset = r := by simpa using hok
    rw [← hr]
    exact goTrim_ends body uploadCutset c hc

/-- Witness for C3 at concrete inputs: a 201 success, a 400 failure and the
trimmed ends of a quoted body. -/
theorem c3_upload_witness :
    (UploadDocument 201 ['b']).isOk = true
    ∧ UploadDocument 400 ['b', 'a', 'd'] = .error (.uploadFailed 400 ['b', 'a', 'd'])
    ∧ ∀ c ∈ uploadCutset, (['t', '1'] : GoStr).head? ≠ some c
        ∧ (['t', '1'] : GoStr).getLast? ≠ some c :=
  ⟨(c3_upload.1 201 ['b']).mpr (by decide),
   c3_upload.2.2.1 400 ['b', 'a', 'd'] (by decide),
   c3_upload.2.2.2 ['"', 't', '1', '"', '\n'] ['t', '1'] (by decide)⟩

/-- C4: download succeeds exactly on HTTP 200; when the Content-Disposition
header contains the filename key the recovered filename is the substring after
the first occurrence of the key with surrounding double quotes trimmed, the
spec's example header yielding exactly invoice.pdf; an absent header or one
without the key yields the empty filename. -/
theorem c4_download :
    (∀ (status : Nat) (body cd : GoStr),
        (DownloadDocument status body cd).isOk = true ↔ status = 200)
    ∧ (∀ (status : Nat) (body cd : GoStr), status ≠ 200 →
        DownloadDocument status body cd = .error (.downloadFailed status body))
    ∧ (∀ (body cd : GoStr) (idx : Nat), goIndex filenameKey cd = some idx →
        DownloadDocument 200 body cd = .ok (body, goTrim (cd.drop (idx + 9)) ['"']))
    ∧ DownloadDocument 200 []
        "attachment; filename=\"invoice.pdf\"".toList = .ok ([], "invoice.pdf".toList)
    ∧ (∀ (body cd : GoStr), goIndex filenameKey cd = none →
        DownloadDocument 200 body cd = .ok (body, [])) := by
  refine ⟨?_, ?_, ?_, by decide, ?_⟩
  · intro status body cd
    by_cases h : status = 200
    · simp [DownloadDocument, h, Except.isOk, Except.toBool]
    · simp [DownloadDocument, h, Except.isOk, Except.toBool]
  · intro status body cd h
    simp [DownloadDocument, h]
  · intro body cd idx hidx
    have hcd : cd ≠ [] := by
      intro hnil
      have hnone : goIndex filenameKey [] = none := by decide
      rw [hnil, hnone] at hidx
      exact Option.noConfusion hidx
    simp [DownloadDocument, extractFilename, hcd, hidx]
  · intro body cd hidx
    by_cases hcd : cd = []
    · simp [DownloadDocument, extractFilename, hcd]
    · simp [DownloadDocument, extractFilename, hcd, hidx]

/-- Witness for C4 at concrete inputs: a 200 success, a 404 failure, the
spec's example header and a header without the filename key. -/
theorem c4_download_witness :
    (DownloadDocument 200 [] []).isOk = true
    ∧ DownloadDocument 404 [] [] = .error (.downloadFailed 404 [])
    ∧ DownloadDocument 200 [] "attachment; filename=\"invoice.pdf\"".toList
        = .ok ([], goTrim ("attachment; filename=\"invoice.pdf\"".toList.drop (12 + 9)) ['"'])
    ∧ DownloadDocument 200 ['b'] ['x'] = .ok (['b'], []) :=
  ⟨(c4_download.1 200 [] []).mpr rfl,
   c4_download.2.1 404 [] [] (by decide),
   c4_download.2.2.1 [] "attachment; filename=\"invoice.pdf\"".toList 12 (by decide),
   c4_download.2.2.2.2 ['b'] ['x'] (by decide)⟩

theorem goHasSuffix_iff (s suf : GoStr) : goHasSuffix s suf = true ↔ suf <:+ s := by
  constructor
  · intro h
    simp only [goHasSuffix, Bool.and_eq_true, decide_eq_true_eq, beq_iff_eq] at h
    exact ⟨s.take (s.length - suf.length), by
      conv_rhs => rw [← List.take_append_drop (s.length - suf.length) s]
      rw [h.2]⟩
  · rintro ⟨u, rfl⟩
    simp [goHasSuffix, List.drop_left]

/-- When the base URL does not end in a double slash, trimming one trailing
slash leaves a string that does not end in a slash. -/
theorem goTrimSuffix_slash_getLast (s : GoStr)
    (h : goHasSuffix s ['/', '/'] = false) :
    (goTrimSuffix s ['/']).getLast? ≠ some '/' := by
  intro hlast
  by_cases hs : goHasSuffix s ['/'] = true
  · obtain ⟨u, hu⟩ := (goHasSuffix_iff s ['/']).mp hs
    have htake : goTrimSuffix s ['/'] = u := by
      simp only [goTrimSuffix, hs, if_true]
      subst hu
      simp
    rw [htake] at hlast
    obtain ⟨t, ht⟩ := List.getLast?_eq_some_iff.mp hlast
    have hss : t ++ ['/', '/'] = s := by rw [← hu, ht]; simp
    have : goHasSuffix s ['/', '/'] = true := (goHasSuffix_iff _ _).mpr ⟨t, hss⟩
    rw [h] at this
    exact Bool.noConfusion this
  · have htrim : goTrimSuffix s ['/'] = s := by
      simp only [goTrimSuffix]
      rw [if_neg hs]
    rw [htrim] at hlast
    obtain ⟨t, ht⟩ := List.getLast?_eq_some_iff.mp hlast
    exact hs ((goHasSuffix_iff _ _).mpr ⟨t, ht.symm⟩)

/-- C6 counterexample: a base URL ending in a double slash keeps a trailing
slash after the single TrimSuffix, so the join with a slash-led path carries a
duplicate slash at the join point, refuting the for-every-base-URL claim. -/
theorem c6_transport_counterexample :
    joinDupSlash (NewClient "http://h//".toList "tok".toList).baseURL "/api/tags/".toList = true
    ∧ ((NewClient "http://h//".toList "tok".toList).request "GET".toList
        "/api/tags/".toList []).url = "http://h//api/tags/".toList := by
  decide

/-- C6 amended: every request carries the Authorization header Token plus the
configured token and the Accept header pinning API version 5, the client uses
a fixed 30 second timeout, the URL is the slash-trimmed base joined with the
path, and the join point has no duplicate slash for every base URL that does
not end in a double slash (the code removes only one trailing slash). -/
theorem c6_transport :
    ∀ (baseURL token method path contentType : GoStr),
      ((NewClient baseURL token).request method path contentType).authorization
          = "Token ".toList ++ token
      ∧ ((NewClient baseURL token).request method path contentType).accept
          = "application/json; version=5".toList
      ∧ (NewClient baseURL token).timeoutSeconds = 30
      ∧ ((NewClient baseURL token).request method path contentType).url
          = goTrimSuffix baseURL ['/'] ++ path
      ∧ (goHasSuffix baseURL ['/', '/'] = false →
          joinDupSlash (NewClient baseURL token).baseURL path = false) := by
  intro baseURL token method path contentType
  refine ⟨rfl, rfl, rfl, rfl, ?_⟩
  intro h
  have hne := goTrimSuffix_slash_getLast baseURL h
  simp [joinDupSlash, NewClient, hne]

/-- Witness for C6 at a concrete client: base URL with one trailing slash,
showing headers, timeout, join and the absence of a duplicate slash. -/
theorem c6_transport_witness :
    ((NewClient "http://h/".toList "tok".toList).request "GET".toList
        "/api/tags/".toList []).authorization = "Token ".toList ++ "tok".toList
    ∧ ((NewClient "http://h/".toList "tok".toList).request "GET".toList
        "/api/tags/".toList []).accept = "application/json; version=5".toList
    ∧ (NewClient "http://h/".toList "tok".toList).timeoutSeconds = 30
    ∧ ((NewClient "http://h/".toList "tok".toList).request "GET".toList
        "/api/tags/".toList []).url = goTrimSuffix "http://h/".toList ['/'] ++ "/api/tags/".toList
    ∧ joinDupSlash (NewClient "http://h/".toList "tok".toList).baseURL
        "/api/tags/".toList = false := by
  have h := c6_transport "http://h/".toList "tok".toList "GET".toList "/api/tags/".toList []
  exact ⟨h.1, h.2.1, h.2.2.1, h.2.2.2.1, h.2.2.2.2 (by decide)⟩

/-- C7: the task lookup path is the list endpoint filtered by task_id; on a 200
response the first element of the decoded list is returned; an empty list is a
not-found failure; a non-200 status is an API error. -/
theorem c7_get_task :
    (∀ taskId : GoStr,
        getTaskPath taskId = "/api/tasks/".toList ++ "?task_id=".toList ++ taskId)
    ∧ (∀ (taskId body : GoStr) (t : Task) (rest : List Task),
        GetTask taskId 200 body (t :: rest) = .ok t)
    ∧ (∀ taskId body : GoStr, GetTask taskId 200 body [] = .error (.taskNotFound taskId))
    ∧ (∀ (taskId body : GoStr) (status : Nat) (tasks : List Task), status ≠ 200 →
        GetTask taskId status body tasks = .error (.apiError status body)) := by
  refine ⟨fun taskId => rfl, ?_, ?_, ?_⟩
  · intro taskId body t rest
    simp [GetTask]
  · intro taskId body
    simp [GetTask]
  · intro taskId body status tasks h
    simp [GetTask, h]

/-- Witness for C7 at concrete inputs: a non-200 status yields the API error. -/
theorem c7_get_task_witness :
    GetTask ['u'] 404 [] [] = .error (.apiError 404 []) :=
  c7_get_task.2.2.2 ['u'] [] 404 [] (by decide)

/-- C8: in a three-item batch whose second item fails, the first item's result
is reported, the failure is reported for the second, and the third is never
attempted; uploads and deletes behave identically. -/
theorem c8_batch_abort :
    (∀ {α β ε : Type} (u : α → Except ε β) (f1 f2 f3 : α) (t1 : β) (e : ε),
        u f1 = .ok t1 → u f2 = .error e →
        runUploadBatch u [f1, f2, f3] = ([(f1, t1)], [f1, f2], some (f2, e)))
    ∧ (∀ {α ε : Type} (d : α → Except ε Unit) (i1 i2 i3 : α) (e : ε),
        d i1 = .ok () → d i2 = .error e →
        runDeleteBatch d [i1, i2, i3] = ([i1], [i1, i2], some (i2, e))) := by
  constructor
  · intro α β ε u f1 f2 f3 t1 e h1 h2
    simp [runUploadBatch, h1, h2]
  · intro α ε d i1 i2 i3 e h1 h2
    simp [runDeleteBatch, h1, h2]

/-- Witness for C8 with concrete batch functions over naturals: item 1
succeeds, item 2 fails, item 3 is not attempted. -/
theorem c8_batch_abort_witness :
    runUploadBatch (fun n : Nat => if n = 1 then Except.ok 10 else Except.error 7) [1, 2, 3]
        = ([(1, 10)], [1, 2], some (2, 7))
    ∧ runDeleteBatch (fun n : Nat => if n = 1 then Except.ok () else Except.error 7) [1, 2, 3]
        = ([1], [1, 2], some (2, 7)) :=
  ⟨c8_batch_abort.1 (fun n : Nat => if n = 1 then Except.ok 10 else Except.error 7)
      1 2 3 10 7 (by decide) (by decide),
   c8_batch_abort.2 (fun n : Nat => if n = 1 then Except.ok () else Except.error 7)
      1 2 3 7 (by decide) (by decide)⟩

theorem natDecimalCore_length : ∀ (fuel n : Nat) (acc : GoStr),
    acc.length ≤ (natDecimalCore fuel n acc).length
  | fuel, 0, acc => by simp [natDecimalCore]
  | 0, n + 1, acc => by simp [natDecimalCore]
  | fuel + 1, n + 1, acc => by
    rw [natDecimalCore]
    exact le_trans (by simp) (natDecimalCore_length fuel ((n + 1) / 10)
      (Char.ofNat (48 + (n + 1) % 10) :: acc))

theorem natDecimal_ne_nil (n : Nat) : natDecimal n ≠ [] := by
  rcases n with _ | m
  · simp [natDecimal]
  · simp only [natDecimal]
    rw [if_neg (Nat.succ_ne_zero m)]
    intro hnil
    have h1 := natDecimalCore_length m ((m + 1) / 10) [Char.ofNat (48 + (m + 1) % 10)]
    simp only [natDecimalCore] at hnil
    rw [hnil] at h1
    simp at h1

theorem goItoa_ne_nil (i : Int) : goItoa i ≠ [] := by
  by_cases h : i < 0
  · simp [goItoa, h]
  · simp [goItoa, h, natDecimal_ne_nil]

/-- C9: every absent ListDocuments filter (empty query, correspondent, type,
date bounds, ordering; non-positive limit or page) is omitted from the query
entirely; no present parameter other than the repeatable tags filter ever has
an empty value; all five auxiliary list endpoints hard-code page_size 1000. -/
theorem c9_query_construction :
    (∀ p : DocumentListParams,
      (p.query = [] → ∀ v, (keyQuery, v) ∉ docListQuery p)
      ∧ (p.correspondent = [] → ∀ v, (keyCorrespondent, v) ∉ docListQuery p)
      ∧ (p.documentType = [] → ∀ v, (keyDocumentType, v) ∉ docListQuery p)
      ∧ (p.createdAfter = [] → ∀ v, (keyCreatedAfter, v) ∉ docListQuery p)
      ∧ (p.createdBefore = [] → ∀ v, (keyCreatedBefore, v) ∉ docListQuery p)
      ∧ (p.ordering = [] → ∀ v, (keyOrdering, v) ∉ docListQuery p)
      ∧ (p.limit ≤ 0 → ∀ v, (keyPageSize, v) ∉ docListQuery p)
      ∧ (p.page ≤ 0 → ∀ v, (keyPage, v) ∉ docListQuery p)
      ∧ (∀ k v, (k, v) ∈ docListQuery p → k ≠ keyTags → v ≠ []))
    ∧ listTagsPath = "/api/tags/".toList ++ auxPageSizeQuery
    ∧ listCorrespondentsPath = "/api/correspondents/".toList ++ auxPageSizeQuery
    ∧ listDocumentTypesPath = "/api/document_types/".toList ++ auxPageSizeQuery
    ∧ listStoragePathsPath = "/api/storage_paths/".toList ++ auxPageSizeQuery
    ∧ listSavedViewsPath = "/api/saved_views/".toList ++ auxPageSizeQuery := by
  refine ⟨?_, rfl, rfl, rfl, rfl, rfl⟩
  intro p
  refine ⟨?_, ?_, ?_, ?_, ?_, ?_, ?_, ?_, ?_⟩
  · intro h v; simp +decide [docListQuery, h]
  · intro h v; simp +decide [docListQuery, h]
  · intro h v; simp +decide [docListQuery, h]
  · intro h v; simp +decide [docListQuery, h]
  · intro h v; simp +decide [docListQuery, h]
  · intro h v; simp +decide [docListQuery, h]
  · intro h v; simp +decide [docListQuery, Int.not_lt.mpr h]
  · intro h v; simp +decide [docListQuery, Int.not_lt.mpr h]
  · intro k v hmem hk hv
    subst hv
    simp +decide [docListQuery] at hmem
    rcases hmem with ⟨a, _, b⟩ | ⟨_, b⟩ | ⟨a, _, b⟩ | ⟨a, _, b⟩ | ⟨a, _, b⟩ | ⟨a, _, b⟩
      | ⟨_, _, b⟩ | ⟨_, _, b⟩ | ⟨a, _, b⟩
    · exact a b
    · exact hk b.symm
    · exact a b
    · exact a b
    · exact a b
    · exact a b
    · exact goItoa_ne_nil p.limit b
    · exact goItoa_ne_nil p.page b
    · exact a b

/-- Witness for C9 at the all-absent parameter record: the query is empty and
a nonempty present value is not empty. -/
theorem c9_query_construction_witness :
    (keyQuery, ['x']) ∉ docListQuery ⟨[], [], [], [], [], [], 0, 0, []⟩
    ∧ (keyPageSize, ['x']) ∉ docListQuery ⟨[], [], [], [], [], [], 0, 0, []⟩
    ∧ (['c'] : GoStr) ≠ [] :=
  ⟨(c9_query_construction.1 ⟨[], [], [], [], [], [], 0, 0, []⟩).1 rfl ['x'],
   (c9_query_construction.1 ⟨[], [], [], [], [], [], 0, 0, []⟩).2.2.2.2.2.2.1
     (by decide) ['x'],
   (c9_query_construction.1 ⟨[], [], ['c'], [], [], [], 0, 0, []⟩).2.2.2.2.2.2.2.2
     keyCorrespondent ['c'] (by decide) (by decide)⟩

/-- C10: truncate returns the string unchanged whenever its length is at most
max; when the string is longer and max is at least 3 it returns exactly max
characters ending in three dots; when the string is longer and max is below 3
the slice index is out of range, modelled as none, so the function is total
only under that precondition. -/
theorem c10_truncate :
    (∀ (s : GoStr) (max : Int), (s.length : Int) ≤ max → truncate s max = some s)
    ∧ (∀ (s : GoStr) (max : Int), max < (s.length : Int) → 3 ≤ max →
        ∃ r, truncate s max = some r ∧ (r.length : Int) = max
          ∧ ['.', '.', '.'] <:+ r)
    ∧ (∀ (s : GoStr) (max : Int), max < (s.length : Int) → max < 3 →
        truncate s max = none) := by
  refine ⟨?_, ?_, ?_⟩
  · intro s max h
    simp [truncate, h]
  · intro s max hlen hmax
    have h1 : ¬((s.length : Int) ≤ max) := by omega
    have h2 : 0 ≤ max - 3 ∧ max - 3 ≤ (s.length : Int) := by omega
    refine ⟨s.take (max - 3).toNat ++ ['.', '.', '.'], ?_, ?_, List.suffix_append _ _⟩
    · simp [truncate, h1, h2]
    · have htk : (max - 3).toNat ≤ s.length := by omega
      simp [List.length_take, Nat.min_eq_left htk]
      omega
  · intro s max hlen hmax
    have h1 : ¬((s.length : Int) ≤ max) := by omega
    have h2 : ¬(0 ≤ max - 3 ∧ max - 3 ≤ (s.length : Int)) := by omega
    simp only [truncate]
    rw [if_neg h1, if_neg h2]

/-- Witness for C10 at concrete inputs: a short string is unchanged, a long
string with max 8 is truncated to 8 characters ending in dots, and max 2 on a
longer string is the out-of-range slice. -/
theorem c10_truncate_witness :
    truncate ['a', 'b'] 5 = some ['a', 'b']
    ∧ (truncate ['h', 'e', 'l', 'l', 'o'] 4).isSome = true
    ∧ truncate ['h', 'e', 'l', 'l', 'o'] 2 = none :=
  ⟨c10_truncate.1 ['a', 'b'] 5 (by decide),
   by
    obtain ⟨r, hr, _, _⟩ := c10_truncate.2.1 ['h', 'e', 'l', 'l', 'o'] 4
      (by decide) (by decide)
    rw [hr]; rfl,
   c10_truncate.2.2 ['h', 'e', 'l', 'l', 'o'] 2 (by decide) (by decide)⟩

end Paperless
